import Mathlib

/-!
Verification of the Adafruit_Thermal printer driver (DFRobot GY-EH402 fork,
`src/Adafruit_Thermal.cpp`) against its natural-language specification.

The driver is shallowly embedded: the mutable `Adafruit_Thermal` object
becomes the structure `PrinterState`, each member function becomes a pure
Lean function from state (plus arguments) to state, and the serial stream
output becomes the `out : List Nat` field (each entry one byte, < 256).
`micros()` is modelled by the `now` field (true elapsed microseconds as an
unbounded natural; the 32-bit hardware counter reads `now % U32`).  A call
to `timeoutWait()` blocks without changing any modelled state, so it is
dropped from the state transitions; `timeoutReady` below captures the
condition it waits for.  Field widths not fixed by the single available
source file follow the spec's data model (plain integers); counters that
the code keeps in `uint8_t` / C `int` are modelled on the value ranges the
code actually produces, with `% 256` inserted where a value is passed
through a `uint8_t` parameter.
-/

/-- 2^32, the modulus of the AVR `micros()` counter and of `unsigned long`
arithmetic in the throttle. -/
def U32 : Nat := 4294967296

/-- `#define BAUDRATE 9600` (this fork lowers the usual 19200 to 9600 for
the GY-EH402). -/
def BAUDRATE : Nat := 9600

/-- `#define BYTE_TIME (((11L * 1000000L) + (BAUDRATE / 2)) / BAUDRATE)` :
microseconds to issue one 11-bit serial frame. -/
def BYTE_TIME : Nat := ((11 * 1000000) + (BAUDRATE / 2)) / BAUDRATE

/-- The mutable driver object of `Adafruit_Thermal.cpp`, plus the two
pieces of environment it observes: the clock (`now`) and the level of the
DTR handshake line (`dtrPinHigh`).  `out` accumulates every byte written
to the serial stream. -/
structure PrinterState where
  dtrEnabled : Bool
  dtrPinHigh : Bool
  now : Nat
  resumeTime : Nat
  firmware : Nat
  prevByte : Nat
  column : Nat
  maxColumn : Nat
  charWidth : Nat
  charHeight : Nat
  lineSpacing : Nat
  barcodeHeight : Nat
  dotPrintTime : Nat
  dotFeedTime : Nat
  printMode : Nat
  fontData : Nat
  autoLineHeight : Bool
  maxChunkHeight : Nat
  out : List Nat
  deriving Repr, DecidableEq

/-- `timeoutSet(x)`: `if (!dtrEnabled) resumeTime = micros() + x;` —
`micros() + x` is `unsigned long` arithmetic, i.e. mod 2^32. -/
def timeoutSet (s : PrinterState) (x : Nat) : PrinterState :=
  if s.dtrEnabled then s else { s with resumeTime := (s.now + x) % U32 }

/-- The condition `timeoutWait()` spins on: with DTR it waits for the pin
to read LOW; otherwise it waits until `(long)(micros() - resumeTime) >= 0`,
i.e. until the unsigned 32-bit difference is below 2^31. -/
def timeoutReady (s : PrinterState) : Bool :=
  if s.dtrEnabled then !s.dtrPinHigh
  else decide ((s.now % U32 + U32 - s.resumeTime % U32) % U32 < 2147483648)

/-- Common body of the five `writeBytes` overloads: wait, write each of
the `uint8_t` arguments to the stream, then
`timeoutSet(k * BYTE_TIME)` for `k` bytes written. -/
def writeBytesList (s : PrinterState) (bs : List Nat) : PrinterState :=
  timeoutSet { s with out := s.out ++ bs.map (· % 256) } (bs.length * BYTE_TIME)

/-- `writeBytes(a)` -/
def writeBytes1 (s : PrinterState) (a : Nat) : PrinterState :=
  writeBytesList s [a]

/-- `writeBytes(a, b)` -/
def writeBytes2 (s : PrinterState) (a b : Nat) : PrinterState :=
  writeBytesList s [a, b]

/-- `writeBytes(a, b, c)` -/
def writeBytes3 (s : PrinterState) (a b c : Nat) : PrinterState :=
  writeBytesList s [a, b, c]

/-- `writeBytes(a, b, c, d)` -/
def writeBytes4 (s : PrinterState) (a b c d : Nat) : PrinterState :=
  writeBytesList s [a, b, c, d]

/-- `writeBytes(a, b, c, d, e)` -/
def writeBytes5 (s : PrinterState) (a b c d e : Nat) : PrinterState :=
  writeBytesList s [a, b, c, d, e]

/-- `writeCmdBytes(a, b, c, d)`: three bytes, optionally skipping the
wait (`d`), then `timeoutSet(3 * BYTE_TIME)`.  The skipped wait has no
effect on modelled state. -/
def writeCmdBytes (s : PrinterState) (a b c : Nat) (_d : Bool) : PrinterState :=
  timeoutSet { s with out := s.out ++ [a % 256, b % 256, c % 256] } (3 * BYTE_TIME)

/-- The driver state right after `begin(268)` + `reset()` with the
default (timing, non-DTR) flow control: the field values set by those
two functions, clock at 0. -/
def initState : PrinterState where
  dtrEnabled := false
  dtrPinHigh := false
  now := 0
  resumeTime := 0
  firmware := 268
  prevByte := 10
  column := 0
  maxColumn := 32
  charWidth := 12
  charHeight := 24
  lineSpacing := 6
  barcodeHeight := 50
  dotPrintTime := 30000
  dotFeedTime := 2100
  printMode := 0
  fontData := 0
  autoLineHeight := true
  maxChunkHeight := 255
  out := []

-- Projection lemmas: `timeoutSet` touches only `resumeTime`.

@[simp] lemma timeoutSet_dtrEnabled (s : PrinterState) (x : Nat) :
    (timeoutSet s x).dtrEnabled = s.dtrEnabled := by
  unfold timeoutSet; split <;> rfl

@[simp] lemma timeoutSet_now (s : PrinterState) (x : Nat) :
    (timeoutSet s x).now = s.now := by
  unfold timeoutSet; split <;> rfl

@[simp] lemma timeoutSet_column (s : PrinterState) (x : Nat) :
    (timeoutSet s x).column = s.column := by
  unfold timeoutSet; split <;> rfl

@[simp] lemma timeoutSet_maxColumn (s : PrinterState) (x : Nat) :
    (timeoutSet s x).maxColumn = s.maxColumn := by
  unfold timeoutSet; split <;> rfl

@[simp] lemma timeoutSet_charWidth (s : PrinterState) (x : Nat) :
    (timeoutSet s x).charWidth = s.charWidth := by
  unfold timeoutSet; split <;> rfl

@[simp] lemma timeoutSet_charHeight (s : PrinterState) (x : Nat) :
    (timeoutSet s x).charHeight = s.charHeight := by
  unfold timeoutSet; split <;> rfl

@[simp] lemma timeoutSet_lineSpacing (s : PrinterState) (x : Nat) :
    (timeoutSet s x).lineSpacing = s.lineSpacing := by
  unfold timeoutSet; split <;> rfl

@[simp] lemma timeoutSet_prevByte (s : PrinterState) (x : Nat) :
    (timeoutSet s x).prevByte = s.prevByte := by
  unfold timeoutSet; split <;> rfl

@[simp] lemma timeoutSet_firmware (s : PrinterState) (x : Nat) :
    (timeoutSet s x).firmware = s.firmware := by
  unfold timeoutSet; split <;> rfl

@[simp] lemma timeoutSet_fontData (s : PrinterState) (x : Nat) :
    (timeoutSet s x).fontData = s.fontData := by
  unfold timeoutSet; split <;> rfl

@[simp] lemma timeoutSet_printMode (s : PrinterState) (x : Nat) :
    (timeoutSet s x).printMode = s.printMode := by
  unfold timeoutSet; split <;> rfl

@[simp] lemma timeoutSet_autoLineHeight (s : PrinterState) (x : Nat) :
    (timeoutSet s x).autoLineHeight = s.autoLineHeight := by
  unfold timeoutSet; split <;> rfl

@[simp] lemma timeoutSet_dotPrintTime (s : PrinterState) (x : Nat) :
    (timeoutSet s x).dotPrintTime = s.dotPrintTime := by
  unfold timeoutSet; split <;> rfl

@[simp] lemma timeoutSet_dotFeedTime (s : PrinterState) (x : Nat) :
    (timeoutSet s x).dotFeedTime = s.dotFeedTime := by
  unfold timeoutSet; split <;> rfl

@[simp] lemma timeoutSet_out (s : PrinterState) (x : Nat) :
    (timeoutSet s x).out = s.out := by
  unfold timeoutSet; split <;> rfl

-- `writeBytesList` touches only `out` and `resumeTime`.

@[simp] lemma writeBytesList_charWidth (s : PrinterState) (bs : List Nat) :
    (writeBytesList s bs).charWidth = s.charWidth := by
  simp [writeBytesList]

@[simp] lemma writeBytesList_charHeight (s : PrinterState) (bs : List Nat) :
    (writeBytesList s bs).charHeight = s.charHeight := by
  simp [writeBytesList]

@[simp] lemma writeBytesList_maxColumn (s : PrinterState) (bs : List Nat) :
    (writeBytesList s bs).maxColumn = s.maxColumn := by
  simp [writeBytesList]

@[simp] lemma writeBytesList_column (s : PrinterState) (bs : List Nat) :
    (writeBytesList s bs).column = s.column := by
  simp [writeBytesList]

@[simp] lemma writeBytesList_prevByte (s : PrinterState) (bs : List Nat) :
    (writeBytesList s bs).prevByte = s.prevByte := by
  simp [writeBytesList]

@[simp] lemma writeBytesList_lineSpacing (s : PrinterState) (bs : List Nat) :
    (writeBytesList s bs).lineSpacing = s.lineSpacing := by
  simp [writeBytesList]

@[simp] lemma writeBytesList_autoLineHeight (s : PrinterState) (bs : List Nat) :
    (writeBytesList s bs).autoLineHeight = s.autoLineHeight := by
  simp [writeBytesList]

@[simp] lemma writeBytesList_dtrEnabled (s : PrinterState) (bs : List Nat) :
    (writeBytesList s bs).dtrEnabled = s.dtrEnabled := by
  simp [writeBytesList]

@[simp] lemma writeBytesList_now (s : PrinterState) (bs : List Nat) :
    (writeBytesList s bs).now = s.now := by
  simp [writeBytesList]

@[simp] lemma writeBytesList_firmware (s : PrinterState) (bs : List Nat) :
    (writeBytesList s bs).firmware = s.firmware := by
  simp [writeBytesList]

@[simp] lemma writeBytesList_fontData (s : PrinterState) (bs : List Nat) :
    (writeBytesList s bs).fontData = s.fontData := by
  simp [writeBytesList]

@[simp] lemma writeBytesList_printMode (s : PrinterState) (bs : List Nat) :
    (writeBytesList s bs).printMode = s.printMode := by
  simp [writeBytesList]

@[simp] lemma writeBytesList_dotPrintTime (s : PrinterState) (bs : List Nat) :
    (writeBytesList s bs).dotPrintTime = s.dotPrintTime := by
  simp [writeBytesList]

@[simp] lemma writeBytesList_dotFeedTime (s : PrinterState) (bs : List Nat) :
    (writeBytesList s bs).dotFeedTime = s.dotFeedTime := by
  simp [writeBytesList]

lemma timeoutSet_resumeTime_of_not_dtr (s : PrinterState) (x : Nat)
    (h : s.dtrEnabled = false) :
    (timeoutSet s x).resumeTime = (s.now + x) % U32 := by
  unfold timeoutSet; rw [h]; rfl

lemma timeoutSet_resumeTime_of_dtr (s : PrinterState) (x : Nat)
    (h : s.dtrEnabled = true) :
    (timeoutSet s x).resumeTime = s.resumeTime := by
  unfold timeoutSet; rw [h]; rfl

lemma writeBytesList_resumeTime_of_dtr (s : PrinterState) (bs : List Nat)
    (h : s.dtrEnabled = true) :
    (writeBytesList s bs).resumeTime = s.resumeTime := by
  unfold writeBytesList
  exact timeoutSet_resumeTime_of_dtr _ _ h

/-- C1: per-byte transmit time is `(11,000,000 + rate/2) / rate` rounded
down, and in timing (non-DTR) mode an N-byte `writeBytes` records a
throttle deadline of at least `now + N * BYTE_TIME` (in fact exactly,
under the no-wraparound side condition on the 32-bit clock). -/
theorem C1_byte_time_deadline (s : PrinterState) (bs : List Nat)
    (hdtr : s.dtrEnabled = false)
    (hfit : s.now + bs.length * BYTE_TIME < U32) :
    BYTE_TIME = (11000000 + BAUDRATE / 2) / BAUDRATE ∧
    (writeBytesList s bs).resumeTime = s.now + bs.length * BYTE_TIME ∧
    s.now + bs.length * BYTE_TIME ≤ (writeBytesList s bs).resumeTime := by
  have hrt : (writeBytesList s bs).resumeTime = s.now + bs.length * BYTE_TIME := by
    unfold writeBytesList
    rw [timeoutSet_resumeTime_of_not_dtr _ _ (by simpa using hdtr)]
    simpa using Nat.mod_eq_of_lt hfit
  exact ⟨rfl, hrt, le_of_eq hrt.symm⟩

/-- Witness for C1 at the concrete two-byte init command `ESC @`
issued from the default state. -/
theorem C1_byte_time_deadline_witness :
    (writeBytesList initState [27, 64]).resumeTime =
      initState.now + 2 * BYTE_TIME := by
  have h := C1_byte_time_deadline initState [27, 64] (by decide) (by decide)
  simpa using h.2.1

/-- C8: with the handshake (DTR) line enabled, `timeoutSet` is a no-op
for every duration; with it disabled, `timeoutSet` sets the deadline to
`now + duration` (32-bit wraparound arithmetic), replacing any prior
value; and the ready test consults `resumeTime` only when the handshake
is disabled (with DTR enabled the result is independent of it). -/
theorem C8_throttle_modes (s : PrinterState) (x : Nat) :
    (s.dtrEnabled = true → timeoutSet s x = s) ∧
    (s.dtrEnabled = false →
      (timeoutSet s x).resumeTime = (s.now + x) % U32 ∧
      ∀ t, (timeoutSet { s with resumeTime := t } x).resumeTime =
        (timeoutSet s x).resumeTime) ∧
    (s.dtrEnabled = true →
      ∀ t, timeoutReady { s with resumeTime := t } = timeoutReady s) := by
  refine ⟨fun h => ?_, fun h => ⟨?_, fun t => ?_⟩, fun h t => ?_⟩
  · unfold timeoutSet; rw [h]; rfl
  · exact timeoutSet_resumeTime_of_not_dtr s x h
  · rw [timeoutSet_resumeTime_of_not_dtr _ _ (by simpa using h),
      timeoutSet_resumeTime_of_not_dtr _ _ h]
  · unfold timeoutReady; rw [h]; rfl

/-- Witness for C8 at concrete states: no-op with DTR on, deadline
`now + duration` with DTR off, and a `resumeTime`-independent ready test
with DTR on. -/
theorem C8_throttle_modes_witness :
    (timeoutSet { initState with dtrEnabled := true } 7 =
      { initState with dtrEnabled := true }) ∧
    (timeoutSet initState 7).resumeTime = (initState.now + 7) % U32 ∧
    timeoutReady { { initState with dtrEnabled := true } with resumeTime := 12345 } =
      timeoutReady { initState with dtrEnabled := true } := by
  refine ⟨(C8_throttle_modes { initState with dtrEnabled := true } 7).1 rfl,
    ((C8_throttle_modes initState 7).2.1 rfl).1,
    (C8_throttle_modes { initState with dtrEnabled := true } 7).2.2 rfl 12345⟩

/-- `Adafruit_Thermal::write(uint8_t c)`, the text writer: carriage
returns (13) are stripped; otherwise the byte is written and the timing
charge is `BYTE_TIME` plus, on a newline or on a wrap (column already at
`maxColumn`), a blank-line feed charge or a text-line print+feed charge
depending on `prevByte`; column resets to 0 on a line ending and
increments otherwise; a wrap forces `prevByte` to newline. -/
def printerWrite (s : PrinterState) (c0 : Nat) : PrinterState :=
  let c := c0 % 256
  if c ≠ 13 then
    let s1 := { s with out := s.out ++ [c] }
    if c = 10 ∨ s1.column = s1.maxColumn then
      let d := BYTE_TIME +
        (if s1.prevByte = 10 then (s1.charHeight + s1.lineSpacing) * s1.dotFeedTime
         else s1.charHeight * s1.dotPrintTime + s1.lineSpacing * s1.dotFeedTime)
      let s2 := timeoutSet { s1 with column := 0 } d
      { s2 with prevByte := 10 }
    else
      let s2 := timeoutSet { s1 with column := s1.column + 1 } BYTE_TIME
      { s2 with prevByte := c }
  else s

/-- Writing a character sequence one byte at a time through
`Adafruit_Thermal::write` (what the inherited `Print::write(buf, n)`
loop does). -/
def writeSeq (s : PrinterState) (bs : List Nat) : PrinterState :=
  bs.foldl printerWrite s

lemma printerWrite_incr (s : PrinterState) (c : Nat)
    (hb : c < 256) (h10 : c ≠ 10) (h13 : c ≠ 13)
    (hcol : s.column ≠ s.maxColumn) :
    (printerWrite s c).column = s.column + 1 ∧
    (printerWrite s c).maxColumn = s.maxColumn := by
  unfold printerWrite
  rw [Nat.mod_eq_of_lt hb]
  rw [if_pos h13, if_neg (by simpa [h10] using hcol)]
  constructor <;> simp

/-- C2 (amended): starting at any column `j`, writing `k` byte-valued
characters none of which is a newline or carriage return, with
`j + k ≤ maxColumn`, leaves the cursor at exactly `j + k` (and leaves
`maxColumn` unchanged).  From column 0 this gives `column = count` for
every `count ≤ maxColumn`; the cursor reaches `maxColumn` itself exactly
when `count = maxColumn`, the wrap to 0 being deferred to the next
written character. -/
theorem C2_column_amended (bs : List Nat) (s : PrinterState)
    (hb : ∀ c ∈ bs, c < 256 ∧ c ≠ 10 ∧ c ≠ 13)
    (hlen : s.column + bs.length ≤ s.maxColumn) :
    (writeSeq s bs).column = s.column + bs.length ∧
    (writeSeq s bs).maxColumn = s.maxColumn := by
  induction bs generalizing s with
  | nil => simp [writeSeq]
  | cons c rest ih =>
    have hc := hb c (List.mem_cons_self c rest)
    have hrest : ∀ d ∈ rest, d < 256 ∧ d ≠ 10 ∧ d ≠ 13 :=
      fun d hd => hb d (List.mem_cons_of_mem c hd)
    have hcol : s.column ≠ s.maxColumn := by
      simp only [List.length_cons] at hlen; omega
    obtain ⟨hstep, hmax⟩ := printerWrite_incr s c hc.1 hc.2.1 hc.2.2 hcol
    have hlen' : (printerWrite s c).column + rest.length ≤
        (printerWrite s c).maxColumn := by
      rw [hstep, hmax]; simp only [List.length_cons] at hlen; omega
    obtain ⟨h1, h2⟩ := ih (printerWrite s c) hrest hlen'
    refine ⟨?_, by rw [writeSeq, List.foldl_cons] at *; rw [← writeSeq] at *; rw [h2, hmax]⟩
    rw [writeSeq, List.foldl_cons, ← writeSeq, h1, hstep]
    simp only [List.length_cons]; omega

/-- Witness for the amended C2: writing "Hi" (72, 105) from the default
state leaves the cursor at column 2. -/
theorem C2_column_amended_witness :
    (writeSeq initState [72, 105]).column = initState.column + 2 := by
  have h := C2_column_amended [72, 105] initState (by decide) (by decide)
  exact h.1

set_option maxRecDepth 8000 in
/-- Counterexample to C2 as stated: from column 0 with `maxColumn = 32`,
writing 32 copies of 'a' (97) — none a newline, none processed at
`column = maxColumn`, so none wrapping — leaves `column = 32`, which
equals `maxColumn` at the moment the writer returns and differs from
`32 % maxColumn = 0`. -/
theorem C2_counterexample :
    (writeSeq initState (List.replicate 32 97)).column = 32 ∧
    initState.maxColumn = 32 ∧
    32 % initState.maxColumn = 0 ∧
    (writeSeq initState (List.replicate 32 97)).column ≠ 32 % initState.maxColumn ∧
    (writeSeq initState (List.replicate 32 97)).column =
      (writeSeq initState (List.replicate 32 97)).maxColumn := by
  refine ⟨by decide, by decide, by decide, by decide, by decide⟩

/-- The `switch (currentFont)` base-size table of `adjustCharValues`:
font 1 is 9x24, font 2 is 9x17, font 3 is 8x16, font 4 is 16x16, and
font 0 (together with the `default` arm) is 12x24. -/
def fontBase (f : Nat) : Nat × Nat :=
  match f with
  | 1 => (9, 24)
  | 2 => (9, 17)
  | 3 => (8, 16)
  | 4 => (16, 16)
  | _ => (12, 24)

/-- `Adafruit_Thermal::adjustCharValues()`: derive `charWidth`,
`charHeight` and `maxColumn` from `fontData & 7` and the double-width
(bit 5) / double-height (bit 4) flags of `printMode`, refresh the packed
`fontData` register, emit the font and size commands, and re-emit the
line height when `autoLineHeight` is on.  The `maxColumn /= 2` of the
double-width branch is kept (as `_mcHalved`) even though the unconditional
`maxColumn = 384 / charWidth` that follows supersedes it, mirroring the
source. -/
def adjustCharValues (s : PrinterState) : PrinterState :=
  let currentFont := s.fontData % 8
  let w0 := (fontBase currentFont).1
  let h0 := (fontBase currentFont).2
  let w1 := if s.printMode &&& 32 ≠ 0 then w0 * 2 else w0
  let _mcHalved := if s.printMode &&& 32 ≠ 0 then s.maxColumn / 2 else s.maxColumn
  let h1 := if s.printMode &&& 16 ≠ 0 then h0 * 2 else h0
  let mc := 384 / w1
  let fontStyle0 := ((s.printMode &&& 32) <<< 2) % 256
  let fontStyle := fontStyle0 ||| ((s.printMode &&& 16) >>> 1)
  let s1 := { s with charWidth := w1, charHeight := h1, maxColumn := mc,
                     fontData := fontStyle ||| currentFont }
  let s2 := writeBytes4 s1 27 77 currentFont 12
  let s3 := writeBytes4 s2 29 33 (fontStyle >>> 3) 12
  if s3.autoLineHeight then writeBytes3 s3 27 51 (s3.charHeight + s3.lineSpacing)
  else s3

/-- The argument normalization of `Adafruit_Thermal::setFont(uint8_t)`:
letters (≥ 65) are upper-cased, values past 'E' or below 'A' fall back
to 'A', then shifted to 0-4; numeric arguments above 4 fall back to 0. -/
def setFontArg (font0 : Nat) : Nat :=
  let font := font0 % 256
  if 65 ≤ font then
    let f1 := if 97 ≤ font ∧ font ≤ 122 then font - 32 else font
    let f2 := if f1 > 69 then 65 else f1
    let f3 := if f2 < 65 then 65 else f2
    f3 - 65
  else if font > 4 then 0 else font

/-- `Adafruit_Thermal::setFont(font)`: normalize the argument, splice it
into the low bits of `fontData` keeping the style bits, and refresh the
metrics. -/
def setFont (s : PrinterState) (font : Nat) : PrinterState :=
  adjustCharValues { s with fontData := (s.fontData &&& 248) ||| setFontArg font }

-- Projections of `adjustCharValues`: the derived metrics, and the fields
-- it leaves alone.

lemma adjustCharValues_charWidth (s : PrinterState) :
    (adjustCharValues s).charWidth =
      (if s.printMode &&& 32 ≠ 0 then (fontBase (s.fontData % 8)).1 * 2
       else (fontBase (s.fontData % 8)).1) := by
  unfold adjustCharValues
  simp only [writeBytes3, writeBytes4, writeBytesList_autoLineHeight]
  by_cases ha : s.autoLineHeight = true
  · rw [if_pos ha]
    simp only [writeBytesList_charWidth]
  · rw [if_neg ha]
    simp only [writeBytesList_charWidth]

lemma adjustCharValues_charHeight (s : PrinterState) :
    (adjustCharValues s).charHeight =
      (if s.printMode &&& 16 ≠ 0 then (fontBase (s.fontData % 8)).2 * 2
       else (fontBase (s.fontData % 8)).2) := by
  unfold adjustCharValues
  simp only [writeBytes3, writeBytes4, writeBytesList_autoLineHeight]
  by_cases ha : s.autoLineHeight = true
  · rw [if_pos ha]
    simp only [writeBytesList_charHeight]
  · rw [if_neg ha]
    simp only [writeBytesList_charHeight]

lemma adjustCharValues_maxColumn (s : PrinterState) :
    (adjustCharValues s).maxColumn =
      384 / (if s.printMode &&& 32 ≠ 0 then (fontBase (s.fontData % 8)).1 * 2
             else (fontBase (s.fontData % 8)).1) := by
  unfold adjustCharValues
  simp only [writeBytes3, writeBytes4, writeBytesList_autoLineHeight]
  by_cases ha : s.autoLineHeight = true
  · rw [if_pos ha]
    simp only [writeBytesList_maxColumn]
  · rw [if_neg ha]
    simp only [writeBytesList_maxColumn]

lemma adjustCharValues_autoLineHeight (s : PrinterState) :
    (adjustCharValues s).autoLineHeight = s.autoLineHeight := by
  unfold adjustCharValues
  simp only [writeBytes3, writeBytes4, writeBytesList_autoLineHeight]
  by_cases ha : s.autoLineHeight = true
  · rw [if_pos ha]
    simp only [writeBytesList_autoLineHeight]
  · rw [if_neg ha]
    simp only [writeBytesList_autoLineHeight]

lemma adjustCharValues_lineSpacing (s : PrinterState) :
    (adjustCharValues s).lineSpacing = s.lineSpacing := by
  unfold adjustCharValues
  simp only [writeBytes3, writeBytes4, writeBytesList_autoLineHeight]
  by_cases ha : s.autoLineHeight = true
  · rw [if_pos ha]
    simp only [writeBytesList_lineSpacing]
  · rw [if_neg ha]
    simp only [writeBytesList_lineSpacing]

/-- C3: metric derivation is a pure total function of the font id and the
double flags: for every font id 0-4, `charWidth` is the table width
doubled exactly when the double-width bit is set, `charHeight` is the
table height doubled exactly when the double-height bit is set, and
`maxColumn = 384 / charWidth` (integer division); in particular
`setFont('C')` (= 67) from the default state yields width 9, height 17
and `maxColumn = 42`. -/
theorem C3_font_metrics (s : PrinterState) (f : Nat) (_hf : f ≤ 4)
    (hfd : s.fontData % 8 = f) :
    ((adjustCharValues s).charWidth =
      (fontBase f).1 * (if s.printMode &&& 32 ≠ 0 then 2 else 1) ∧
     (adjustCharValues s).charHeight =
      (fontBase f).2 * (if s.printMode &&& 16 ≠ 0 then 2 else 1) ∧
     (adjustCharValues s).maxColumn = 384 / (adjustCharValues s).charWidth) ∧
    ((setFont initState 67).charWidth = 9 ∧
     (setFont initState 67).charHeight = 17 ∧
     (setFont initState 67).maxColumn = 42) := by
  refine ⟨⟨?_, ?_, ?_⟩, by decide, by decide, by decide⟩
  · rw [adjustCharValues_charWidth, hfd]
    by_cases hw : s.printMode &&& 32 ≠ 0 <;> simp [hw]
  · rw [adjustCharValues_charHeight, hfd]
    by_cases hh : s.printMode &&& 16 ≠ 0 <;> simp [hh]
  · rw [adjustCharValues_maxColumn, adjustCharValues_charWidth]

/-- Witness for C3 at the concrete state `setFont('C')` reaches: font
id 2 with no double modes gives width 9, height 17, `maxColumn` 42. -/
theorem C3_font_metrics_witness :
    (adjustCharValues { initState with fontData := 2 }).charWidth = 9 ∧
    (adjustCharValues { initState with fontData := 2 }).charHeight = 17 ∧
    (adjustCharValues { initState with fontData := 2 }).maxColumn = 42 := by
  obtain ⟨⟨h1, h2, h3⟩, -⟩ :=
    C3_font_metrics { initState with fontData := 2 } 2 (by decide) (by decide)
  exact ⟨h1.trans (by decide), h2.trans (by decide),
    by rw [h3, h1]; decide⟩

/-- `Adafruit_Thermal::underlineOn(uint8_t weight)`: weights above 2 are
lowered to 2, then `ESC - weight` is emitted. -/
def underlineOn (s : PrinterState) (weight : Nat) : PrinterState :=
  let w := if weight % 256 > 2 then 2 else weight % 256
  writeBytes3 s 27 45 w

/-- `Adafruit_Thermal::setCharset(uint8_t val)`: values above 15 are
lowered to 15, then `ESC R val` is emitted. -/
def setCharset (s : PrinterState) (val : Nat) : PrinterState :=
  let v := if val % 256 > 15 then 15 else val % 256
  writeBytes3 s 27 82 v

/-- `Adafruit_Thermal::setCodePage(uint8_t val)`: values above 47 are
lowered to 47, then `ESC t val` is emitted. -/
def setCodePage (s : PrinterState) (val : Nat) : PrinterState :=
  let v := if val % 256 > 47 then 47 else val % 256
  writeBytes3 s 27 116 v

/-- The length clamp of `Adafruit_Thermal::printBarcode` on firmware
>= 264: `int len = strlen(text); if (len > 255) len = 255;`. -/
def barcodeLenClamp (len : Nat) : Nat :=
  if len > 255 then 255 else len

/-- Counterexample to C7 as stated: `setFont(5)` — font id 5, one past
the valid range 0-4 — is mapped to font 0, not to the nearest valid
value 4 (whose distance to 5 is strictly smaller). -/
theorem C7_counterexample :
    setFontArg 5 = 0 ∧ setFontArg 5 ≠ 4 ∧ 5 - 4 < 5 - setFontArg 5 := by
  refine ⟨by decide, by decide, by decide⟩

/-- C7 (amended): every configuration operation accepts every argument
value — it never rejects or errors — and maps it into the valid range:
underline weight, charset index, code-page index and barcode text length
are clamped to the nearest valid value (`min` with the range maximum),
while an out-of-range font id falls back to the default font 0 / 'A'
(nonetheless a valid id) rather than the nearest one. -/
theorem C7_clamp_amended (s : PrinterState) (w v p len f : Nat)
    (hw : w < 256) (hv : v < 256) (hp : p < 256) :
    (underlineOn s w).out = s.out ++ [27, 45, min w 2] ∧
    (setCharset s v).out = s.out ++ [27, 82, min v 15] ∧
    (setCodePage s p).out = s.out ++ [27, 116, min p 47] ∧
    barcodeLenClamp len = min len 255 ∧
    setFontArg f ≤ 4 := by
  refine ⟨?_, ?_, ?_, ?_, ?_⟩
  · unfold underlineOn writeBytes3 writeBytesList
    rw [Nat.mod_eq_of_lt hw]
    simp only [timeoutSet_out]
    congr 1
    have : (if w > 2 then 2 else w) = min w 2 := by split <;> omega
    rw [this]
    have hm : min w 2 % 256 = min w 2 := Nat.mod_eq_of_lt (by omega)
    simp [hm]
  · unfold setCharset writeBytes3 writeBytesList
    rw [Nat.mod_eq_of_lt hv]
    simp only [timeoutSet_out]
    congr 1
    have : (if v > 15 then 15 else v) = min v 15 := by split <;> omega
    rw [this]
    have hm : min v 15 % 256 = min v 15 := Nat.mod_eq_of_lt (by omega)
    simp [hm]
  · unfold setCodePage writeBytes3 writeBytesList
    rw [Nat.mod_eq_of_lt hp]
    simp only [timeoutSet_out]
    congr 1
    have : (if p > 47 then 47 else p) = min p 47 := by split <;> omega
    rw [this]
    have hm : min p 47 % 256 = min p 47 := Nat.mod_eq_of_lt (by omega)
    simp [hm]
  · unfold barcodeLenClamp; split <;> omega
  · unfold setFontArg
    have h8 : f % 256 < 256 := Nat.mod_lt _ (by norm_num)
    dsimp only
    split
    · split <;> split <;> split <;> omega
    · split <;> omega

/-- Witness for the amended C7 at concrete out-of-range arguments:
underline weight 9 emits weight 2, charset 200 emits 15, code page 200
emits 47, barcode length 300 clamps to 255, font id 200 maps into 0-4. -/
theorem C7_clamp_amended_witness :
    (underlineOn initState 9).out = initState.out ++ [27, 45, 2] ∧
    (setCharset initState 200).out = initState.out ++ [27, 82, 15] ∧
    (setCodePage initState 200).out = initState.out ++ [27, 116, 47] ∧
    barcodeLenClamp 300 = 255 ∧
    setFontArg 200 ≤ 4 := by
  obtain ⟨h1, h2, h3, h4, h5⟩ :=
    C7_clamp_amended initState 9 200 200 300 200
      (by decide) (by decide) (by decide)
  exact ⟨h1.trans (by decide), h2.trans (by decide), h3.trans (by decide),
    h4.trans (by decide), h5⟩

/-- `Adafruit_Thermal::feed(uint8_t x)`: on firmware >= 264 issue
`ESC d x`, charge `dotFeedTime * charHeight`, and reset `prevByte` to
newline and `column` to 0; on older firmware feed manually by writing
`x` newlines through the text writer. -/
def feed (s : PrinterState) (x : Nat) : PrinterState :=
  if 264 ≤ s.firmware then
    let s1 := writeBytes3 s 27 100 x
    let s2 := timeoutSet s1 (s1.dotFeedTime * s1.charHeight)
    { s2 with prevByte := 10, column := 0 }
  else
    writeSeq s (List.replicate (x % 256) 10)

/-- C9: on firmware >= 264, `feed(x)` always resets the cursor column to
0 and `prevByte` to newline, records (in timing mode) a busy estimate of
exactly `charHeight * dotFeedTime`, and that estimate — indeed the whole
recorded deadline — is independent of the line count `x`. -/
theorem C9_feed (s : PrinterState) (x y : Nat) (hfw : 264 ≤ s.firmware) :
    (feed s x).column = 0 ∧
    (feed s x).prevByte = 10 ∧
    (s.dtrEnabled = false →
      (feed s x).resumeTime = (s.now + s.charHeight * s.dotFeedTime) % U32) ∧
    (feed s x).resumeTime = (feed s y).resumeTime := by
  unfold feed
  rw [if_pos hfw, if_pos hfw]
  refine ⟨rfl, rfl, fun hd => ?_, ?_⟩
  · dsimp only
    rw [timeoutSet_resumeTime_of_not_dtr _ _
      (by simp only [writeBytes3, writeBytesList_dtrEnabled]; exact hd)]
    simp only [writeBytes3, writeBytesList_now, writeBytesList_dotFeedTime,
      writeBytesList_charHeight]
    rw [Nat.mul_comm]
  · cases hdtr : s.dtrEnabled with
    | false =>
      dsimp only
      rw [timeoutSet_resumeTime_of_not_dtr _ _
          (by simp only [writeBytes3, writeBytesList_dtrEnabled]; exact hdtr),
        timeoutSet_resumeTime_of_not_dtr _ _
          (by simp only [writeBytes3, writeBytesList_dtrEnabled]; exact hdtr)]
      simp only [writeBytes3, writeBytesList_now, writeBytesList_dotFeedTime,
        writeBytesList_charHeight]
    | true =>
      dsimp only
      rw [timeoutSet_resumeTime_of_dtr _ _
          (by simp only [writeBytes3, writeBytesList_dtrEnabled]; exact hdtr),
        timeoutSet_resumeTime_of_dtr _ _
          (by simp only [writeBytes3, writeBytesList_dtrEnabled]; exact hdtr)]
      simp only [writeBytes3]
      rw [writeBytesList_resumeTime_of_dtr _ _ hdtr,
        writeBytesList_resumeTime_of_dtr _ _ hdtr]

/-- Witness for C9: from the default state (firmware 268, timing mode),
`feed(3)` lands at column 0, `prevByte` newline, deadline
`24 * 2100 = 50400` microseconds, and `feed(7)` records the same
deadline. -/
theorem C9_feed_witness :
    (feed initState 3).column = 0 ∧
    (feed initState 3).prevByte = 10 ∧
    (feed initState 3).resumeTime =
      (initState.now + initState.charHeight * initState.dotFeedTime) % U32 ∧
    (feed initState 3).resumeTime = (feed initState 7).resumeTime := by
  obtain ⟨h1, h2, h3, h4⟩ := C9_feed initState 3 7 (by decide)
  exact ⟨h1, h2, h3 rfl, h4⟩

/-- `Adafruit_Thermal::autoLineHeightOff()`. -/
def autoLineHeightOff (s : PrinterState) : PrinterState :=
  adjustCharValues { s with autoLineHeight := false }

/-- `Adafruit_Thermal::setLineHeight(int val)`: switch automatic line
height off, raise `val` to at least 20, store `val - 20` as the line
spacing and emit `ESC 3 val`.  `val` is a C `int`, so the argument is
`Int`; the stored spacing is non-negative after the clamp, hence the
`toNat`. -/
def setLineHeight (s : PrinterState) (val : Int) : PrinterState :=
  let s1 := autoLineHeightOff s
  let v := if val < 20 then 20 else val
  let s2 := { s1 with lineSpacing := (v - 20).toNat }
  writeBytes3 s2 27 51 v.toNat

/-- C10: for every argument, `setLineHeight` leaves `autoLineHeight`
disabled, clamps the argument to a minimum of 20, and sets `lineSpacing`
to the clamped value minus 20 — a non-negative quantity. -/
theorem C10_setLineHeight (s : PrinterState) (val : Int) :
    (setLineHeight s val).autoLineHeight = false ∧
    ((setLineHeight s val).lineSpacing : Int) = max val 20 - 20 ∧
    (0 : Int) ≤ max val 20 - 20 := by
  refine ⟨?_, ?_, by have h := le_max_right val 20; omega⟩
  · simp only [setLineHeight, autoLineHeightOff, writeBytes3,
      writeBytesList_autoLineHeight, adjustCharValues_autoLineHeight]
  · simp only [setLineHeight, writeBytes3, writeBytesList_lineSpacing]
    by_cases hv : val < 20
    · rw [if_pos hv, max_eq_right (by omega : val ≤ 20)]
      norm_num
    · rw [if_neg hv, max_eq_left (by omega : (20 : Int) ≤ val)]
      omega

/-- `rowBytes = (w + 7) / 8` of `printBitmap`: round the pixel width up
to the next byte boundary.  (The C `int` arithmetic agrees with `Nat`
for the non-negative widths a bitmap can have.) -/
def rowBytesOf (w : Nat) : Nat := (w + 7) / 8

/-- `rowBytesClipped = (rowBytes >= 48) ? 48 : rowBytes` — 384 pixels
maximum printable width. -/
def rowBytesClippedOf (w : Nat) : Nat :=
  if rowBytesOf w ≥ 48 then 48 else rowBytesOf w

/-- The chunk-height limit of `printBitmap`: 255 with the DTR handshake;
otherwise `256 / rowBytesClipped` (the worst-case 256-byte receive
buffer), lowered to `maxChunkHeight` when above it, raised to 1 when
below 1. -/
def chunkHeightLimitOf (dtr : Bool) (mch w : Nat) : Nat :=
  if dtr then 255
  else
    let l := 256 / rowBytesClippedOf w
    if l > mch then mch else if l < 1 then 1 else l

/-- The chunk heights issued by the loop
`for (rowStart = 0; rowStart < h; rowStart += chunkHeightLimit)` with
`chunkHeight = min(h - rowStart, chunkHeightLimit)`.  Structured over a
fuel argument (first `Nat`) that the driver instantiates with `h`, which
bounds the iteration count whenever `limit ≥ 1`; with `limit = 0` the C
loop would not terminate. -/
def chunkHeightsAux (limit : Nat) : Nat → Nat → List Nat
  | 0, _ => []
  | _ + 1, 0 => []
  | fuel + 1, hLeft + 1 =>
    min (hLeft + 1) limit :: chunkHeightsAux limit fuel (hLeft + 1 - limit)

/-- Chunk decomposition of a height-`h` bitmap under a given limit. -/
def chunkHeights (h limit : Nat) : List Nat := chunkHeightsAux limit h h

/-- One chunk's inner loops of the streaming `printBitmap`: for each of
`rows` rows, transmit `rbc` bytes read from the source, then read and
discard `rb - rbc` further bytes to keep the source aligned.  Returns
the transmitted bytes and the remaining source. -/
def sendRows (rb rbc : Nat) : Nat → List Nat → List Nat × List Nat
  | 0, src => ([], src)
  | rows + 1, src =>
    let sent := src.take rbc
    let src1 := (src.drop rbc).drop (rb - rbc)
    let (rest, src2) := sendRows rb rbc rows src1
    (sent ++ rest, src2)

/-- The chunk loop of `printBitmap(w, h, Stream*)`: per chunk a header
`DC2 '*' chunkHeight rowBytesClipped` (recorded as the pair
`(chunkHeight, rowBytesClipped)`), then the chunk's rows.  Returns
(headers, transmitted data bytes, remaining source).  Fuel as in
`chunkHeightsAux`. -/
def bitmapLoopAux (rb rbc limit : Nat) :
    Nat → Nat → List Nat → List (Nat × Nat) × List Nat × List Nat
  | 0, _, src => ([], [], src)
  | _ + 1, 0, src => ([], [], src)
  | fuel + 1, hLeft + 1, src =>
    let ch := min (hLeft + 1) limit
    let (sent, src1) := sendRows rb rbc ch src
    let (hdrs, rest, src2) :=
      bitmapLoopAux rb rbc limit fuel (hLeft + 1 - limit) src1
    ((ch, rbc) :: hdrs, sent ++ rest, src2)

/-- `printBitmap(w, h, fromStream)` as a trace: headers issued,
data bytes transmitted, and unread remainder of the source. -/
def printBitmapStream (dtr : Bool) (mch w h : Nat) (src : List Nat) :
    List (Nat × Nat) × List Nat × List Nat :=
  bitmapLoopAux (rowBytesOf w) (rowBytesClippedOf w)
    (chunkHeightLimitOf dtr mch w) h h src

lemma chunkHeightsAux_mem (limit : Nat) (hl : 1 ≤ limit) :
    ∀ fuel hLeft c, c ∈ chunkHeightsAux limit fuel hLeft →
      1 ≤ c ∧ c ≤ limit := by
  intro fuel
  induction fuel with
  | zero => intro hLeft c hc; simp [chunkHeightsAux] at hc
  | succ n ih =>
    intro hLeft c hc
    match hLeft with
    | 0 => simp [chunkHeightsAux] at hc
    | m + 1 =>
      rw [chunkHeightsAux] at hc
      rcases List.mem_cons.mp hc with h | h
      · subst h; constructor <;> omega
      · exact ih _ _ h

lemma chunkHeightLimitOf_le (mch w : Nat) (hw : 1 ≤ w) (hm : 1 ≤ mch) :
    1 ≤ chunkHeightLimitOf false mch w ∧
    chunkHeightLimitOf false mch w ≤ min mch (256 / rowBytesClippedOf w) := by
  have hrb : 1 ≤ rowBytesOf w := by
    unfold rowBytesOf
    have : 8 ≤ w + 7 := by omega
    exact Nat.le_div_iff_mul_le (by norm_num) |>.mpr (by omega)
  have hrbc1 : 1 ≤ rowBytesClippedOf w := by
    unfold rowBytesClippedOf; split <;> omega
  have hrbc48 : rowBytesClippedOf w ≤ 48 := by
    unfold rowBytesClippedOf; split <;> omega
  have hdiv : 1 ≤ 256 / rowBytesClippedOf w :=
    Nat.le_div_iff_mul_le hrbc1 |>.mpr (by omega)
  unfold chunkHeightLimitOf
  simp only [Bool.false_eq_true, if_false]
  split
  · constructor <;> omega
  · split <;> constructor <;> omega

/-- C4: without the handshake, every chunk height issued by the bitmap
transfer satisfies
`1 ≤ chunkHeight ≤ min(maxChunkHeight, 256 / rowBytesClipped)`; with the
handshake every chunk height is at most 255.  (Positive width and a
chunk ceiling of at least 1, as the driver default 255 guarantees; the C
code divides by zero on `w = 0` and loops forever on
`maxChunkHeight = 0`.) -/
theorem C4_chunk_bounds (w h mch c : Nat) (hw : 1 ≤ w) (hm : 1 ≤ mch) :
    (c ∈ chunkHeights h (chunkHeightLimitOf false mch w) →
      1 ≤ c ∧ c ≤ min mch (256 / rowBytesClippedOf w)) ∧
    (c ∈ chunkHeights h (chunkHeightLimitOf true mch w) → c ≤ 255) := by
  obtain ⟨h1, h2⟩ := chunkHeightLimitOf_le mch w hw hm
  constructor
  · intro hc
    obtain ⟨hc1, hc2⟩ := chunkHeightsAux_mem _ h1 _ _ _ hc
    exact ⟨hc1, le_trans hc2 h2⟩
  · intro hc
    have h255 : chunkHeightLimitOf true mch w = 255 := rfl
    rw [h255] at hc
    exact (chunkHeightsAux_mem 255 (by omega) _ _ _ hc).2

/-- Witness for C4 at the C5 scenario numbers: chunk height 5 of a
400x10 bitmap with ceiling 255 obeys both bounds. -/
theorem C4_chunk_bounds_witness :
    (1 ≤ 5 ∧ 5 ≤ min 255 (256 / rowBytesClippedOf 400)) ∧ (5 ≤ 255) := by
  obtain ⟨ha, hb⟩ := C4_chunk_bounds 400 10 255 5 (by decide) (by decide)
  exact ⟨ha (by decide), by decide⟩

set_option maxRecDepth 40000 in
/-- C5: for a 400x10 bitmap without handshake and `maxChunkHeight = 255`:
`rowBytes = 50`, `rowBytesClipped = 48`, `chunkHeightLimit = 256/48 = 5`,
and on a 500-byte source (10 rows of 50 bytes) the transfer issues
exactly two chunk headers of 5 rows each (48 bytes per row), transmits
per row exactly the first 48 bytes of that source row — the other 2 are
consumed (the source is left empty) but not transmitted. -/
theorem C5_bitmap_scenario :
    rowBytesOf 400 = 50 ∧
    rowBytesClippedOf 400 = 48 ∧
    chunkHeightLimitOf false 255 400 = 5 ∧
    (printBitmapStream false 255 400 10 (List.range 500)).1 =
      [(5, 48), (5, 48)] ∧
    (printBitmapStream false 255 400 10 (List.range 500)).2.1 =
      ((List.range 10).map
        (fun r => (List.range 48).map (fun i => 50 * r + i))).flatten ∧
    (printBitmapStream false 255 400 10 (List.range 500)).2.2 = [] := by
  refine ⟨by decide, by decide, by decide, by decide, by decide, by decide⟩

/-- `Adafruit_Thermal::getStatus(statusPage)`: issue the DLE EOT status
request (unthrottled), then poll the input up to ten times, returning
the first byte available, or 255 when none arrives.  The `input` list
models the bytes the printer has made available on the serial stream. -/
def getStatus (s : PrinterState) (input : List Nat) (statusPage : Nat) :
    PrinterState × Nat :=
  let s1 := writeCmdBytes s 16 4 statusPage true
  match input with
  | [] => (s1, 255)
  | b :: _ => (s1, b % 256)

/-- The status-byte test of `Adafruit_Thermal::hasPaper()`:
`!((status & 0b01100000) == 96)`. -/
def hasPaperStatus (status : Nat) : Bool :=
  !((status &&& 96) == 96)

/-- `Adafruit_Thermal::hasPaper()`: read paper-sensor page 4 and apply
the bit test. -/
def hasPaper (s : PrinterState) (input : List Nat) : PrinterState × Bool :=
  let r := getStatus s input 4
  (r.1, hasPaperStatus r.2)

/-- Counterexample to C6 as stated: the status byte 224 = 0b11100000 is
different from 0b01100000 = 96, yet `hasPaper` returns false for it,
because the code tests `(status & 0b01100000) == 96` — a masked bit
test, not equality of the whole byte. -/
theorem C6_counterexample :
    (hasPaper initState [224]).2 = false ∧ (224 : Nat) ≠ 96 := by
  refine ⟨by decide, by decide⟩

/-- C6 (amended): `hasPaper()` returns false exactly when bits 5 and 6
of the status byte read from paper-sensor page 4 are both set, i.e. when
`status & 0b01100000 = 0b01100000` — the byte 0b01100000 itself is one
such value, but any byte with both bits set also reports no paper. -/
theorem C6_paper_amended (s : PrinterState) (status : Nat) :
    (hasPaper s [status]).2 = hasPaperStatus (status % 256) ∧
    (hasPaperStatus (status % 256) = false ↔ (status % 256) &&& 96 = 96) := by
  constructor
  · rfl
  · unfold hasPaperStatus
    constructor
    · intro h
      by_contra hne
      simp [hne] at h
    · intro h
      simp [h]
